import Mathlib

/-!
# Verification of the pyairtable-go-shared rate-limiting middleware

This file gives a shallow embedding, in Lean 4, of the rate-limiting
middleware of the `pyairtable-go-shared` library
(`src/middleware/ratelimit.go`) together with the parts of its
dependencies that the middleware observes:

* the Redis-backed counter store (`cache.Client.IncrementBy` /
  `cache.Client.Expire`), modelled as an explicit state value threaded
  through the handler;
* the token-bucket limiter of `golang.org/x/time/rate` (`NewLimiter`,
  `Allow`, `Reserve().Delay()`), modelled for a positive rate, which is
  the only way the middleware constructs it in the theorems below;
* the JWT claims read by `PerUserRateLimit`.

Time is modelled exactly as Go represents it: instants and durations
handled by the window limiters are integer nanoseconds
(`time.Time` / `time.Duration`), with `Time.Truncate` rounding down to a
multiple of the duration since the zero time and `Time.Unix` taking the
floor in seconds; the token-bucket limiter, which Go runs on `float64`
token counts, is modelled over `ℚ` with exact arithmetic, instants being
rational seconds since the Go zero time.

Handlers are state-transformers: a handler consumes the request, the
current time and the store state and returns the new store state
together with a `Decision` recording whether the pipeline continued
without rate-limit headers (`next`), continued with headers (`admit`),
or was aborted with a 429 response (`reject`, carrying the `retryAfter`
value placed in the JSON body).  Construction-time `panic`s are
modelled by the constructor returning `none`.
-/

namespace PyAirtable

/-- The request attributes that the rate-limiting middleware reads from
the gin context: the URL path (for `SkipPaths`), the client IP and the
identities used by the standard key functions. -/
structure Request where
  path : String
  clientIP : String
  userID : String
  tenantID : String
deriving Repr, DecidableEq

/-- `DefaultKeyFunc` from ratelimit.go: the rate-limit key is the client IP. -/
def DefaultKeyFunc (c : Request) : String := c.clientIP

/-- `UserKeyFunc` from ratelimit.go: `"user:" ++ userID` when a user is
authenticated, otherwise the client IP. -/
def UserKeyFunc (c : Request) : String :=
  if c.userID != "" then "user:" ++ c.userID else c.clientIP

/-- `TenantKeyFunc` from ratelimit.go: `"tenant:" ++ tenantID` when a tenant
is in context, otherwise the client IP. -/
def TenantKeyFunc (c : Request) : String :=
  if c.tenantID != "" then "tenant:" ++ c.tenantID else c.clientIP

/-- `RateLimitConfig` from ratelimit.go.  `WindowSize` is a
`time.Duration`, i.e. integer nanoseconds.  The `RedisClient` pointer is
modelled by whether it is nil (`HasRedisClient`); the behaviour of a
non-nil client is the store state threaded through the handlers. -/
structure RateLimitConfig where
  RequestsPerSecond : Int
  BurstSize : Int
  WindowSize : Int
  MaxRequests : Int
  KeyFunc : Option (Request → String)
  SkipPaths : List String
  UseRedis : Bool
  HasRedisClient : Bool

/-- The zero value of the Go struct `RateLimitConfig` (what
`var selectedConfig RateLimitConfig` declares in `PerUserRateLimit`). -/
def zeroRateLimitConfig : RateLimitConfig :=
  { RequestsPerSecond := 0, BurstSize := 0, WindowSize := 0, MaxRequests := 0
    KeyFunc := none, SkipPaths := [], UseRedis := false, HasRedisClient := false }

/-- One second (`time.Second`) in nanoseconds. -/
def nsPerSecond : Int := 1000000000

/-- One minute (`time.Minute`) in nanoseconds. -/
def minuteNs : Int := 60 * nsPerSecond

/-- `t.Truncate(d)` of Go's `time` package for an instant `t ≥ 0`:
rounding `t` down to a multiple of `d` since the zero time (`d ≤ 0`
leaves `t` unchanged). -/
def truncateTo (d t : Int) : Int := if d ≤ 0 then t else t - t % d

/-- `t.Unix()` of Go's `time` package: the floor of `t` in seconds. -/
def unixSec (t : Int) : Int := t / nsPerSecond

/-- `int(d.Seconds())` for a non-negative `time.Duration d`: the float
truncates toward zero, which for `d ≥ 0` is the floor in seconds. -/
def durSeconds (d : Int) : Int := d / nsPerSecond

/-- The observable state of the Redis counter store behind
`cache.Client`: the integer value of every counter key (Redis `INCRBY`
treats a missing key as `0`), the log of `Expire` calls issued (most
recent first, each recording the key and the requested TTL in
nanoseconds), and whether the store currently fails its calls (circuit
breaker open / Redis unreachable). -/
structure RedisState where
  counters : List (String × Int)
  expireLog : List (String × Int)
  failing : Bool
deriving Repr, DecidableEq

/-- The current value of a counter key (`0` when absent). -/
def RedisState.value (st : RedisState) (key : String) : Int :=
  (st.counters.lookup key).getD 0

/-- `cache.Client.IncrementBy(ctx, key, delta)`: atomically add `delta`
and return the post-increment value, or an error (`none`) when the
store is failing. -/
def redisIncrementBy (st : RedisState) (key : String) (delta : Int) :
    Option (Int × RedisState) :=
  if st.failing then none
  else
    let newVal := st.value key + delta
    some (newVal,
      { st with counters := (key, newVal) :: st.counters.filter (fun p => p.1 != key) })

/-- `cache.Client.Expire(ctx, key, d)`: record the TTL request. -/
def redisExpire (st : RedisState) (key : String) (d : Int) : RedisState :=
  { st with expireLog := (key, d) :: st.expireLog }

/-- The rate-limit response headers a handler sets, with their values
before stringification: `X-RateLimit-Limit`, and optionally
`X-RateLimit-Remaining`, `X-RateLimit-Reset` (Unix seconds) and
`X-RateLimit-Window` (the `time.Duration`, in nanoseconds, whose
`String()` rendering is sent). -/
structure RateHeaders where
  limit : Int
  remaining : Option Int
  reset : Option Int
  window : Option Int
deriving Repr, DecidableEq

/-- The outcome of running a rate-limiting handler on one request:
`next` means the pipeline continued with no rate-limit headers set
(exempt path or degraded store), `allow` means it continued with the
given headers set, `reject` means a 429 response with the given headers
and a JSON body whose `retry_after` detail is `retryAfter`. -/
inductive Decision where
  | next
  | allow (headers : RateHeaders)
  | reject (headers : RateHeaders) (retryAfter : Int)
deriving Repr, DecidableEq

/-- Whether a decision lets the request through to the next handler. -/
def Decision.admitted : Decision → Bool
  | .next => true
  | .allow _ => true
  | .reject _ _ => false

/-- The construction-time normalisation shared by
`SlidingWindowRateLimit` and `FixedWindowRateLimit`: a nil `KeyFunc`
becomes `DefaultKeyFunc` and a zero `WindowSize` becomes `time.Minute`. -/
def normalizeWindowConfig (config : RateLimitConfig) : RateLimitConfig :=
  let config :=
    if config.KeyFunc.isNone then { config with KeyFunc := some DefaultKeyFunc } else config
  if config.WindowSize = 0 then { config with WindowSize := minuteNs } else config

/-- The request-time handler that `SlidingWindowRateLimit` returns
(ratelimit.go lines 110–166), transcribed statement by statement.  The
`gin.Context` interactions become: reading the request, returning the
new store state and the `Decision`. -/
def slidingWindowHandler (config : RateLimitConfig) (c : Request) (now : Int)
    (redis : RedisState) : RedisState × Decision :=
  if c.path ∈ config.SkipPaths then
    (redis, Decision.next)
  else
    let key := "ratelimit:" ++ (config.KeyFunc.getD DefaultKeyFunc) c
    let window := truncateTo config.WindowSize now
    let countKey := key ++ ":" ++ toString (unixSec window)
    match redisIncrementBy redis countKey 1 with
    | none => (redis, Decision.next)
    | some (count, redis) =>
      let redis := if count = 1 then redisExpire redis countKey config.WindowSize else redis
      if config.MaxRequests < count then
        let reset := unixSec (window + config.WindowSize)
        let retryAfter := durSeconds (window + config.WindowSize - now) + 1
        (redis,
          Decision.reject
            { limit := config.MaxRequests, remaining := some 0
              reset := some reset, window := some config.WindowSize } retryAfter)
      else
        let remaining := config.MaxRequests - count
        let reset := unixSec (window + config.WindowSize)
        (redis,
          Decision.allow
            { limit := config.MaxRequests, remaining := some remaining
              reset := some reset, window := some config.WindowSize })

/-- `SlidingWindowRateLimit` (ratelimit.go lines 96–167): panics
(`none`) when the Redis client is nil, otherwise normalises the
configuration and returns the request-time handler. -/
def SlidingWindowRateLimit (config : RateLimitConfig) :
    Option (Request → Int → RedisState → RedisState × Decision) :=
  if config.HasRedisClient = false then none
  else some (slidingWindowHandler (normalizeWindowConfig config))

/-- The request-time handler that `FixedWindowRateLimit` returns
(ratelimit.go lines 183–239), transcribed statement by statement. -/
def fixedWindowHandler (config : RateLimitConfig) (c : Request) (now : Int)
    (redis : RedisState) : RedisState × Decision :=
  if c.path ∈ config.SkipPaths then
    (redis, Decision.next)
  else
    let key := "ratelimit:" ++ (config.KeyFunc.getD DefaultKeyFunc) c
    let window := truncateTo config.WindowSize now
    let windowKey := key ++ ":" ++ toString (unixSec window)
    match redisIncrementBy redis windowKey 1 with
    | none => (redis, Decision.next)
    | some (count, redis) =>
      let redis := if count = 1 then redisExpire redis windowKey config.WindowSize else redis
      if config.MaxRequests < count then
        let reset := unixSec (window + config.WindowSize)
        let retryAfter := durSeconds (window + config.WindowSize - now) + 1
        (redis,
          Decision.reject
            { limit := config.MaxRequests, remaining := some 0
              reset := some reset, window := some config.WindowSize } retryAfter)
      else
        let remaining := config.MaxRequests - count
        let reset := unixSec (window + config.WindowSize)
        (redis,
          Decision.allow
            { limit := config.MaxRequests, remaining := some remaining
              reset := some reset, window := some config.WindowSize })

/-- `FixedWindowRateLimit` (ratelimit.go lines 169–240): panics
(`none`) when the Redis client is nil, otherwise normalises the
configuration and returns the request-time handler. -/
def FixedWindowRateLimit (config : RateLimitConfig) :
    Option (Request → Int → RedisState → RedisState × Decision) :=
  if config.HasRedisClient = false then none
  else some (fixedWindowHandler (normalizeWindowConfig config))

/-- `time.Now().Unix()` on the rational-seconds clock used by the
token-bucket limiter: the floor of the instant in seconds. -/
def qUnix (t : ℚ) : Int := ⌊t⌋

/-- The state of one `golang.org/x/time/rate` `Limiter`: the rate
(`limit`, tokens per second), the bucket size (`burst`), the current
token count (`tokens`, may be negative after an uncancelled
reservation) and the instant of the last state update (`last`, seconds
since the Go zero time, which is instant `0` here). -/
structure Limiter where
  limit : ℚ
  burst : Int
  tokens : ℚ
  last : ℚ
deriving Repr, DecidableEq

/-- `rate.NewLimiter(r, b)`: a limiter with zero tokens last updated at
the zero time — so the first `advance` refills it to `burst`. -/
def newLimiter (r : ℚ) (b : Int) : Limiter :=
  { limit := r, burst := b, tokens := 0, last := 0 }

/-- The token count that `Limiter.advance` computes at instant `t`:
refill proportional to the time elapsed since `last` (clamped below by
`t` itself when time ran backwards), capped at `burst`. -/
def Limiter.advanceTokens (lim : Limiter) (t : ℚ) : ℚ :=
  let last := if t < lim.last then t else lim.last
  let tokens := lim.tokens + lim.limit * (t - last)
  if (lim.burst : ℚ) < tokens then (lim.burst : ℚ) else tokens

/-- `Limiter.Allow()` called at instant `t`, for a positive rate (the
only way the middleware uses it): `reserveN(t, 1, 0)` — the request is
admissible when one token fits in the burst and no wait would be
needed; on success the token is consumed and the state advanced, on
failure the token state is left unchanged. -/
def Limiter.allow (lim : Limiter) (t : ℚ) : Bool × Limiter :=
  let tokens := lim.advanceTokens t - 1
  if 1 ≤ lim.burst ∧ 0 ≤ tokens then
    (true, { lim with tokens := tokens, last := t })
  else
    (false, { lim with last := if t < lim.last then t else lim.last })

/-- `Duration` value of Go's `InfDuration` (`math.MaxInt64`
nanoseconds), in seconds: what `Reservation.Delay()` returns for a
reservation that could not be made. -/
def infDurationSeconds : ℚ := (9223372036854775807 : ℚ) / 1000000000

/-- `Limiter.Reserve().Delay()` called at instant `t`, for a positive
rate: `reserveN(t, 1, InfDuration)` always succeeds when one token fits
in the burst, consumes the token (driving the count negative when none
was available) and reports the wait until the reserved token accrues;
the middleware never cancels this reservation. -/
def Limiter.reserveDelay (lim : Limiter) (t : ℚ) : ℚ × Limiter :=
  let tokens := lim.advanceTokens t - 1
  if 1 ≤ lim.burst then
    (if tokens < 0 then -tokens / lim.limit else 0,
     { lim with tokens := tokens, last := t })
  else
    (infDurationSeconds, { lim with last := if t < lim.last then t else lim.last })

/-- Store a limiter under its key in the `limiters` map. -/
def setLimiter (l : List (String × Limiter)) (k : String) (v : Limiter) :
    List (String × Limiter) :=
  (k, v) :: l.filter (fun p => p.1 != k)

/-- The request-time handler that `TokenBucketRateLimit` returns
(ratelimit.go lines 59–93), transcribed statement by statement over an
explicit `limiters` map.  `int(limiter.Reserve().Delay().Seconds())` is
the floor of the delay in seconds (the delay is non-negative). -/
def tokenBucketHandler (config : RateLimitConfig) (c : Request) (now : ℚ)
    (limiters : List (String × Limiter)) : List (String × Limiter) × Decision :=
  if c.path ∈ config.SkipPaths then
    (limiters, Decision.next)
  else
    let key := (config.KeyFunc.getD DefaultKeyFunc) c
    let limiter := (limiters.lookup key).getD
      (newLimiter (config.RequestsPerSecond : ℚ) config.BurstSize)
    let (ok, limiter) := limiter.allow now
    if ok then
      (setLimiter limiters key limiter,
        Decision.allow
          { limit := config.RequestsPerSecond, remaining := none
            reset := none, window := none })
    else
      let (delay, limiter) := limiter.reserveDelay now
      let retryAfter := ⌊delay⌋ + 1
      (setLimiter limiters key limiter,
        Decision.reject
          { limit := config.RequestsPerSecond, remaining := some 0
            reset := some (qUnix (now + 1)), window := none } retryAfter)

/-- `TokenBucketRateLimit` (ratelimit.go lines 52–94): defaults a nil
`KeyFunc` and returns the request-time handler.  The `limiters` map it
allocates is the handler's state, initially `[]`
(`tokenBucketInitialState`); it never panics. -/
def TokenBucketRateLimit (config : RateLimitConfig) :
    Request → ℚ → List (String × Limiter) → List (String × Limiter) × Decision :=
  tokenBucketHandler
    (if config.KeyFunc.isNone then { config with KeyFunc := some DefaultKeyFunc } else config)

/-- The fresh `limiters := make(map[string]*rate.Limiter)` allocated at
construction time by `TokenBucketRateLimit`. -/
def tokenBucketInitialState : List (String × Limiter) := []

/-- Run a `TokenBucketRateLimit` handler over a sequence of timed
requests, threading the shared `limiters` map, and collect the
decisions. -/
def tokenBucketRun (config : RateLimitConfig) :
    List (Request × ℚ) → List (String × Limiter) →
      List (String × Limiter) × List Decision
  | [], st => (st, [])
  | (c, t) :: rest, st =>
    let r := TokenBucketRateLimit config c t st
    let rs := tokenBucketRun config rest r.1
    (rs.1, r.2 :: rs.2)

/-- The JWT claims that `PerUserRateLimit` reads from the context
(`GetClaimsFromContext`); only the role list is consulted. -/
structure JWTClaims where
  Roles : List String
deriving Repr, DecidableEq

/-- The policy selection performed by `PerUserRateLimit` (ratelimit.go
lines 245–261): starting from the zero value of `RateLimitConfig`, take
the configuration of the first of the caller's roles present in the
`config` map (break on first hit); if the resulting configuration has
`MaxRequests == 0`, use `defaultConfig` instead. -/
def selectUserConfig (config : List (String × RateLimitConfig))
    (claims : Option JWTClaims) (defaultConfig : RateLimitConfig) : RateLimitConfig :=
  let selectedConfig :=
    match claims with
    | none => zeroRateLimitConfig
    | some cl => (cl.Roles.findSome? (fun role => config.lookup role)).getD zeroRateLimitConfig
  if selectedConfig.MaxRequests = 0 then defaultConfig else selectedConfig

/-- One request through the handler that `PerUserRateLimit` returns
(ratelimit.go lines 243–270).  Both inner middlewares are
*constructed inside the request handler*: the distributed branch may
therefore panic at request time (`none`), and the token-bucket branch
runs on a freshly allocated `limiters` map every time.  `nowNs` and
`nowSec` are the same instant on the two clock encodings (integer
nanoseconds for the window limiter, rational seconds for the token
bucket). -/
def perUserHandleOne (config : List (String × RateLimitConfig))
    (defaultConfig : RateLimitConfig) (claims : Option JWTClaims)
    (c : Request) (nowNs : Int) (nowSec : ℚ) (redis : RedisState) :
    Option (RedisState × Decision) :=
  let selectedConfig := selectUserConfig config claims defaultConfig
  if selectedConfig.UseRedis then
    match FixedWindowRateLimit selectedConfig with
    | none => none
    | some handler => some (handler c nowNs redis)
  else
    some (redis, (TokenBucketRateLimit selectedConfig c nowSec tokenBucketInitialState).2)

/-- Run the `PerUserRateLimit` handler over a sequence of requests,
threading the shared Redis store (the only state that survives between
requests) and collecting the decisions; `none` if any request panics. -/
def perUserRun (config : List (String × RateLimitConfig))
    (defaultConfig : RateLimitConfig) :
    List (Option JWTClaims × Request × Int × ℚ) → RedisState →
      Option (RedisState × List Decision)
  | [], redis => some (redis, [])
  | (claims, c, nowNs, nowSec) :: rest, redis =>
    match perUserHandleOne config defaultConfig claims c nowNs nowSec redis with
    | none => none
    | some (redis, d) =>
      match perUserRun config defaultConfig rest redis with
      | none => none
      | some (redis, ds) => some (redis, d :: ds)

/-- The headers a decision sets (`none` for the pass-through paths). -/
def Decision.headers : Decision → Option RateHeaders
  | .next => none
  | .allow h => some h
  | .reject h _ => some h

/-- A non-exempt request used in the concrete witnesses below. -/
def sampleRequest : Request :=
  { path := "/api/records", clientIP := "203.0.113.7", userID := "", tenantID := "" }

/-- A request for an exempt health endpoint. -/
def healthRequest : Request :=
  { path := "/health", clientIP := "203.0.113.7", userID := "", tenantID := "" }

/-- A distributed (window) policy: 2 requests per 60-second window,
with `/health` exempt and a live Redis client. -/
def sampleWindowConfig : RateLimitConfig :=
  { RequestsPerSecond := 0, BurstSize := 0, WindowSize := 60 * nsPerSecond, MaxRequests := 2
    KeyFunc := none, SkipPaths := ["/health"], UseRedis := true, HasRedisClient := true }

/-- The same distributed policy with `WindowSize` left at its zero value. -/
def zeroWindowConfig : RateLimitConfig :=
  { sampleWindowConfig with WindowSize := 0 }

/-- An in-process token-bucket policy: 1 request per second, burst 1. -/
def sampleBucketConfig : RateLimitConfig :=
  { RequestsPerSecond := 1, BurstSize := 1, WindowSize := 0, MaxRequests := 5
    KeyFunc := none, SkipPaths := [], UseRedis := false, HasRedisClient := false }

/-- A default per-user policy (in-process, larger burst). -/
def sampleDefaultConfig : RateLimitConfig :=
  { RequestsPerSecond := 3, BurstSize := 3, WindowSize := 0, MaxRequests := 10
    KeyFunc := none, SkipPaths := [], UseRedis := false, HasRedisClient := false }

/-- A distributed policy whose Redis client is nil: the
misconfiguration that construction is supposed to reject. -/
def nilClientConfig : RateLimitConfig :=
  { RequestsPerSecond := 0, BurstSize := 0, WindowSize := 0, MaxRequests := 10
    KeyFunc := none, SkipPaths := [], UseRedis := true, HasRedisClient := false }

/-- A configured role policy whose `MaxRequests` field is zero (a
token-bucket policy does not use `MaxRequests`). -/
def zeroMaxRoleConfig : RateLimitConfig :=
  { RequestsPerSecond := 7, BurstSize := 7, WindowSize := 0, MaxRequests := 0
    KeyFunc := none, SkipPaths := [], UseRedis := false, HasRedisClient := false }

/-- An empty, healthy Redis store. -/
def emptyRedis : RedisState := { counters := [], expireLog := [], failing := false }

/-- A Redis store whose calls currently fail (unreachable / circuit open). -/
def failingRedis : RedisState := { counters := [], expireLog := [], failing := true }

/-- A store in which `sampleRequest`'s current window counter already
equals the `sampleWindowConfig` maximum, so the next request is rejected. -/
def overlimitRedis : RedisState :=
  { counters := [("ratelimit:203.0.113.7:60", 2)], expireLog := [], failing := false }

/-- A `limiters` map holding a drained bucket for `sampleRequest`'s key
(`tokens = 0`, last touched at instant 1000). -/
def sampleLimiterState : List (String × Limiter) :=
  [("203.0.113.7", { limit := 1, burst := 1, tokens := 0, last := 1000 })]

/-! ## Helper lemmas -/

lemma value_set (cs es : List (String × Int)) (f : Bool) (key : String) (v : Int) :
    RedisState.value ⟨(key, v) :: cs, es, f⟩ key = v := by
  simp [RedisState.value, List.lookup]

lemma incrementBy_ok (st : RedisState) (key : String) (hfail : st.failing = false) :
    redisIncrementBy st key 1
      = some (st.value key + 1,
          { st with counters :=
              (key, st.value key + 1) :: st.counters.filter (fun p => p.1 != key) }) := by
  simp [redisIncrementBy, hfail]

lemma findSome?_eq_none_of_all (f : String → Option RateLimitConfig) :
    ∀ l : List String, (∀ x ∈ l, f x = none) → l.findSome? f = none
  | [], _ => rfl
  | a :: as, h => by
    have ha := h a (by simp)
    have hrest := findSome?_eq_none_of_all f as (fun x hx => h x (by simp [hx]))
    simp [List.findSome?_cons, ha, hrest]

lemma findSome?_append_first (f : String → Option RateLimitConfig) (r : String)
    (cfg : RateLimitConfig) (rest : List String) :
    ∀ pre : List String, (∀ x ∈ pre, f x = none) → f r = some cfg →
      (pre ++ r :: rest).findSome? f = some cfg
  | [], _, hr => by simp [List.findSome?_cons, hr]
  | a :: pre, h, hr => by
    have ha := h a (by simp)
    have hrest := findSome?_append_first f r cfg rest pre (fun x hx => h x (by simp [hx])) hr
    simp [List.findSome?_cons, ha, hrest]

lemma window_reject_bounds (W now : Int) (hW : 0 < W)
    (ra reset : Int)
    (hra : ra = durSeconds (truncateTo W now + W - now) + 1)
    (hreset : reset = unixSec (truncateTo W now + W)) :
    1 ≤ ra ∧ reset - unixSec now ≤ ra ∧ ra ≤ reset - unixSec now + 1 := by
  have h1 : 0 ≤ now % W := Int.emod_nonneg now (ne_of_gt hW)
  have h2 : now % W < W := Int.emod_lt_of_pos now hW
  rw [truncateTo, if_neg (not_le.mpr hW)] at hra hreset
  rw [durSeconds] at hra
  rw [unixSec] at hreset
  rw [unixSec]
  generalize hr : now % W = r at *
  have e1 : now - r + W - now = W - r := by ring
  rw [e1] at hra
  have e2 : now - r + W = now + (W - r) := by ring
  rw [e2] at hreset
  generalize hd : W - r = d at *
  subst hra hreset
  simp only [nsPerSecond] at *
  omega

lemma window_reject_output (config : RateLimitConfig) (c : Request) (now : Int)
    (redis : RedisState) (k : String) (window : Int) (countKey : String) (count : Int)
    (hskip : c.path ∉ config.SkipPaths)
    (hfail : redis.failing = false)
    (hk : k = (config.KeyFunc.getD DefaultKeyFunc) c)
    (hwindow : window = truncateTo config.WindowSize now)
    (hkey : countKey = "ratelimit:" ++ k ++ ":" ++ toString (unixSec window))
    (hcount : count = redis.value countKey + 1)
    (hover : config.MaxRequests < count) :
    (fixedWindowHandler config c now redis).2
      = Decision.reject
          { limit := config.MaxRequests, remaining := some 0,
            reset := some (unixSec (window + config.WindowSize)),
            window := some config.WindowSize }
          (durSeconds (window + config.WindowSize - now) + 1) := by
  subst hk hwindow hkey hcount
  unfold fixedWindowHandler
  rw [if_neg hskip]
  simp only [incrementBy_ok _ _ hfail]
  split_ifs <;> rfl

lemma tb_reject_spec (config : RateLimitConfig) (c : Request) (now : ℚ)
    (limiters : List (String × Limiter)) (key : String) (lim : Limiter)
    (hR : 1 ≤ config.RequestsPerSecond)
    (hskip : c.path ∉ config.SkipPaths)
    (hkey : key = (config.KeyFunc.getD DefaultKeyFunc) c)
    (hlim : lim = (limiters.lookup key).getD
      (newLimiter (config.RequestsPerSecond : ℚ) config.BurstSize))
    (hlimit : lim.limit = (config.RequestsPerSecond : ℚ))
    (hburst : 1 ≤ lim.burst)
    (hmono : lim.last ≤ now)
    (htok : 0 ≤ lim.tokens)
    (havail : lim.advanceTokens now < 1)
    (ra : Int)
    (hra : ra = ⌊(1 - lim.advanceTokens now) / lim.limit⌋ + 1) :
    (tokenBucketHandler config c now limiters).2
      = Decision.reject
          { limit := config.RequestsPerSecond, remaining := some 0,
            reset := some (qUnix (now + 1)), window := none } ra
    ∧ 1 ≤ ra ∧ qUnix (now + 1) - qUnix now ≤ ra ∧ ra ≤ qUnix (now + 1) - qUnix now + 1 := by
  have hRq : (1 : ℚ) ≤ (config.RequestsPerSecond : ℚ) := by exact_mod_cast hR
  have hR0 : (0 : ℚ) < lim.limit := by rw [hlimit]; linarith
  have havail0 : 0 ≤ lim.advanceTokens now := by
    unfold Limiter.advanceTokens
    rw [if_neg (not_lt.mpr hmono)]
    have hb : (0 : ℚ) ≤ (lim.burst : ℚ) := by exact_mod_cast le_trans Int.one_nonneg hburst
    have ht : 0 ≤ lim.tokens + lim.limit * (now - lim.last) := by
      have := mul_nonneg (le_of_lt hR0) (sub_nonneg.mpr hmono)
      linarith
    dsimp only
    split <;> assumption
  have hallow : lim.allow now = (false, lim) := by
    unfold Limiter.allow
    rw [if_neg (by intro h; exact absurd h.2 (by simp; linarith))]
    rw [if_neg (not_lt.mpr hmono)]
  have hreserve : lim.reserveDelay now
      = ((1 - lim.advanceTokens now) / lim.limit,
         { lim with tokens := lim.advanceTokens now - 1, last := now }) := by
    unfold Limiter.reserveDelay
    rw [if_pos hburst, if_pos (by linarith : lim.advanceTokens now - 1 < 0)]
    rw [neg_sub]
  have hmain : (tokenBucketHandler config c now limiters).2
      = Decision.reject
          { limit := config.RequestsPerSecond, remaining := some 0,
            reset := some (qUnix (now + 1)), window := none } ra := by
    unfold tokenBucketHandler
    rw [if_neg hskip]
    simp only [← hkey, ← hlim, hallow, hreserve, hra]
    simp
  have hdelay0 : 0 < (1 - lim.advanceTokens now) / lim.limit :=
    div_pos (by linarith) hR0
  have hdelay1 : (1 - lim.advanceTokens now) / lim.limit ≤ 1 := by
    rw [div_le_one hR0]
    linarith [hlimit]
  have hfl0 : 0 ≤ ⌊(1 - lim.advanceTokens now) / lim.limit⌋ :=
    Int.floor_nonneg.mpr (le_of_lt hdelay0)
  have hfl1 : ⌊(1 - lim.advanceTokens now) / lim.limit⌋ ≤ 1 := by
    have := Int.floor_le_floor (α := ℚ) hdelay1
    simpa using this
  have hq : qUnix (now + 1) = qUnix now + 1 := by
    unfold qUnix
    exact_mod_cast Int.floor_add_one now
  refine ⟨hmain, by omega, by rw [hq]; omega, by rw [hq]; omega⟩

lemma lookup_limiter_mem :
    ∀ (l : List (String × Limiter)) (k : String) (lim : Limiter),
      l.lookup k = some lim → (k, lim) ∈ l := by
  intro l
  induction l with
  | nil => intro k lim h; simp [List.lookup] at h
  | cons p t ih =>
    intro k lim h
    obtain ⟨a, b⟩ := p
    rw [List.lookup] at h
    by_cases hk : (k == a) = true
    · rw [hk] at h
      obtain rfl : b = lim := by simpa using h
      obtain rfl : k = a := eq_of_beq hk
      exact List.mem_cons_self _ _
    · have hk' : (k == a) = false := by simpa using hk
      rw [hk'] at h
      exact List.mem_cons_of_mem _ (ih k lim h)

lemma allow_snd_limit (lim : Limiter) (t : ℚ) : ((lim.allow t).2).limit = lim.limit := by
  unfold Limiter.allow
  dsimp only
  split <;> rfl

lemma reserveDelay_snd_limit (lim : Limiter) (t : ℚ) :
    ((lim.reserveDelay t).2).limit = lim.limit := by
  unfold Limiter.reserveDelay
  dsimp only
  split <;> rfl

lemma reserveDelay_fst_nonneg (lim : Limiter) (t : ℚ) (hl : 0 ≤ lim.limit) :
    0 ≤ (lim.reserveDelay t).1 := by
  unfold Limiter.reserveDelay
  dsimp only
  split
  · split
    · exact div_nonneg (by linarith) hl
    · exact le_refl 0
  · norm_num [infDurationSeconds]



lemma tb_reject_retry_pos (config : RateLimitConfig) (c : Request) (now : ℚ)
    (limiters : List (String × Limiter)) (hd : RateHeaders) (ra : Int)
    (hl : 0 ≤ ((limiters.lookup ((config.KeyFunc.getD DefaultKeyFunc) c)).getD
        (newLimiter (config.RequestsPerSecond : ℚ) config.BurstSize)).limit)
    (hrej : (tokenBucketHandler config c now limiters).2 = Decision.reject hd ra) :
    1 ≤ ra := by
  unfold tokenBucketHandler at hrej
  by_cases hskip : c.path ∈ config.SkipPaths
  · rw [if_pos hskip] at hrej
    exact absurd hrej (by simp)
  · rw [if_neg hskip] at hrej
    simp only [] at hrej
    set lim := (limiters.lookup ((config.KeyFunc.getD DefaultKeyFunc) c)).getD
      (newLimiter (config.RequestsPerSecond : ℚ) config.BurstSize) with hlim
    rcases hallow : lim.allow now with ⟨ok, lim1⟩
    rw [hallow] at hrej
    cases ok
    · rcases hres : lim1.reserveDelay now with ⟨delay, lim2⟩
      rw [hres] at hrej
      simp only [Decision.reject.injEq] at hrej
      obtain ⟨-, hra⟩ := hrej
      have hlim1 : 0 ≤ lim1.limit := by
        have h1 : lim1 = (lim.allow now).2 := by rw [hallow]
        rw [h1, allow_snd_limit]
        exact hl
      have hd0 : 0 ≤ delay := by
        have := reserveDelay_fst_nonneg lim1 now hlim1
        rw [hres] at this
        exact this
      have : 0 ≤ ⌊delay⌋ := Int.floor_nonneg.mpr hd0
      omega
    · exact absurd hrej (by simp)

lemma window_reject_retry_pos (config : RateLimitConfig) (c : Request) (now : Int)
    (redis : RedisState) (hd : RateHeaders) (ra : Int)
    (hW : 0 < config.WindowSize)
    (hrej : (fixedWindowHandler config c now redis).2 = Decision.reject hd ra) :
    1 ≤ ra := by
  unfold fixedWindowHandler at hrej
  by_cases hskip : c.path ∈ config.SkipPaths
  · rw [if_pos hskip] at hrej
    exact absurd hrej (by simp)
  · rw [if_neg hskip] at hrej
    cases hf : redis.failing
    · simp only [incrementBy_ok _ _ hf] at hrej
      split_ifs at hrej <;>
        simp only [Decision.reject.injEq] at hrej
      all_goals {
        obtain ⟨-, hra⟩ := hrej
        exact (window_reject_bounds config.WindowSize now hW ra
          (unixSec (truncateTo config.WindowSize now + config.WindowSize))
          hra.symm rfl).1
      }
    · simp [redisIncrementBy, hf] at hrej



lemma tokenBucket_state_limits (config : RateLimitConfig) (c : Request) (now : ℚ)
    (st : List (String × Limiter))
    (hR : 0 ≤ config.RequestsPerSecond)
    (hinv : ∀ p ∈ st, 0 ≤ (Prod.snd p).limit) :
    ∀ p ∈ (tokenBucketHandler config c now st).1, 0 ≤ (Prod.snd p).limit := by
  unfold tokenBucketHandler
  by_cases hskip : c.path ∈ config.SkipPaths
  · rw [if_pos hskip]
    exact hinv
  · rw [if_neg hskip]
    simp only []
    set key := (config.KeyFunc.getD DefaultKeyFunc) c with hkey
    set lim := (st.lookup key).getD
      (newLimiter (config.RequestsPerSecond : ℚ) config.BurstSize) with hlim
    have hlim0 : 0 ≤ lim.limit := by
      rw [hlim]
      cases hlook : st.lookup key with
      | none =>
        simp [newLimiter]
        exact_mod_cast hR
      | some l =>
        simp only [Option.getD_some]
        exact hinv (key, l) (lookup_limiter_mem st key l hlook)
    rcases hallow : lim.allow now with ⟨ok, lim1⟩
    dsimp only
    have hlim1 : 0 ≤ lim1.limit := by
      have h1 : lim1 = (lim.allow now).2 := by rw [hallow]
      rw [h1, allow_snd_limit]
      exact hlim0
    cases ok
    · rw [if_neg (by simp)]
      dsimp only
      have hlim2 : 0 ≤ ((lim1.reserveDelay now).2).limit := by
        rw [reserveDelay_snd_limit]
        exact hlim1
      intro p hp
      simp only [setLimiter, List.mem_cons] at hp
      rcases hp with rfl | hp
      · exact hlim2
      · exact hinv p (List.mem_of_mem_filter hp)
    · rw [if_pos rfl]
      dsimp only
      intro p hp
      simp only [setLimiter, List.mem_cons] at hp
      rcases hp with rfl | hp
      · exact hlim1
      · exact hinv p (List.mem_of_mem_filter hp)

lemma tokenBucketRateLimit_rps (config : RateLimitConfig) :
    (if config.KeyFunc.isNone then { config with KeyFunc := some DefaultKeyFunc }
     else config).RequestsPerSecond = config.RequestsPerSecond := by
  split <;> rfl

lemma tokenBucket_run_retry_pos (config : RateLimitConfig)
    (hR : 0 ≤ config.RequestsPerSecond) :
    ∀ (reqs : List (Request × ℚ)) (st : List (String × Limiter)),
      (∀ p ∈ st, 0 ≤ (Prod.snd p).limit) →
      ∀ (hd : RateHeaders) (ra : Int),
        Decision.reject hd ra ∈ (tokenBucketRun config reqs st).2 → 1 ≤ ra := by
  intro reqs
  induction reqs with
  | nil => intro st hinv hd ra hmem; simp [tokenBucketRun] at hmem
  | cons q rest ih =>
    intro st hinv hd ra hmem
    obtain ⟨c, t⟩ := q
    rw [tokenBucketRun] at hmem
    simp only [List.mem_cons] at hmem
    set cfg1 := (if config.KeyFunc.isNone then { config with KeyFunc := some DefaultKeyFunc }
      else config) with hcfg1
    have hR1 : 0 ≤ cfg1.RequestsPerSecond := by
      rw [hcfg1, tokenBucketRateLimit_rps]
      exact hR
    have hTB : TokenBucketRateLimit config c t st = tokenBucketHandler cfg1 c t st := rfl
    rcases hmem with hmem | hmem
    · refine tb_reject_retry_pos cfg1 c t st hd ra ?_ ?_
      · cases hlook : st.lookup ((cfg1.KeyFunc.getD DefaultKeyFunc) c) with
        | none =>
          simp [newLimiter]
          exact_mod_cast hR1
        | some l =>
          simp only [Option.getD_some]
          exact hinv (_, l) (lookup_limiter_mem st _ l hlook)
      · rw [← hTB]
        exact hmem.symm
    · refine ih (TokenBucketRateLimit config c t st).1 ?_ hd ra hmem
      rw [hTB]
      exact tokenBucket_state_limits cfg1 c t st hR1 hinv

/-! ## Claim theorems -/

/-- C1: for every non-exempt request through the distributed
(fixed-window or sliding-window) limiter whose store increment succeeds
and returns `count`: the window start is the current time truncated to
`WindowSize`, the counter key is `"ratelimit:" ++ partitionKey ++ ":" ++
windowStartUnix`, that counter now holds `count`, its expiry is set to
`WindowSize` exactly when `count = 1`, the request is rejected iff
`count` exceeds `MaxRequests`, and the `X-RateLimit-Remaining` header
equals `max 0 (MaxRequests - count)` (shown inside the full header
equation). -/
theorem window_counter_key_expiry_decision_headers
    (config : RateLimitConfig) (c : Request) (now : Int) (redis : RedisState)
    (k : String) (window : Int) (countKey : String) (count : Int)
    (hskip : c.path ∉ config.SkipPaths)
    (hfail : redis.failing = false)
    (hk : k = (config.KeyFunc.getD DefaultKeyFunc) c)
    (hwindow : window = truncateTo config.WindowSize now)
    (hkey : countKey = "ratelimit:" ++ k ++ ":" ++ toString (unixSec window))
    (hcount : count = redis.value countKey + 1) :
    ((fixedWindowHandler config c now redis).1.value countKey = count
      ∧ (fixedWindowHandler config c now redis).1.expireLog
          = (if count = 1 then (countKey, config.WindowSize) :: redis.expireLog
             else redis.expireLog)
      ∧ ((fixedWindowHandler config c now redis).2.admitted = true
          ↔ count ≤ config.MaxRequests)
      ∧ (fixedWindowHandler config c now redis).2.headers
          = some { limit := config.MaxRequests,
                   remaining := some (max 0 (config.MaxRequests - count)),
                   reset := some (unixSec (window + config.WindowSize)),
                   window := some config.WindowSize })
    ∧ ((slidingWindowHandler config c now redis).1.value countKey = count
      ∧ (slidingWindowHandler config c now redis).1.expireLog
          = (if count = 1 then (countKey, config.WindowSize) :: redis.expireLog
             else redis.expireLog)
      ∧ ((slidingWindowHandler config c now redis).2.admitted = true
          ↔ count ≤ config.MaxRequests)
      ∧ (slidingWindowHandler config c now redis).2.headers
          = some { limit := config.MaxRequests,
                   remaining := some (max 0 (config.MaxRequests - count)),
                   reset := some (unixSec (window + config.WindowSize)),
                   window := some config.WindowSize }) := by
  have main : ∀ h : RateLimitConfig → Request → Int → RedisState → RedisState × Decision,
      h = fixedWindowHandler →
      ((h config c now redis).1.value countKey = count
        ∧ (h config c now redis).1.expireLog
            = (if count = 1 then (countKey, config.WindowSize) :: redis.expireLog
               else redis.expireLog)
        ∧ ((h config c now redis).2.admitted = true ↔ count ≤ config.MaxRequests)
        ∧ (h config c now redis).2.headers
            = some { limit := config.MaxRequests,
                     remaining := some (max 0 (config.MaxRequests - count)),
                     reset := some (unixSec (window + config.WindowSize)),
                     window := some config.WindowSize }) := by
    rintro h rfl
    subst hk hwindow hkey hcount
    unfold fixedWindowHandler
    rw [if_neg hskip]
    simp only [incrementBy_ok _ _ hfail]
    split_ifs <;>
      simp_all [value_set, redisExpire, Decision.admitted, Decision.headers] <;>
      omega
  exact ⟨main _ rfl, main _ rfl⟩

/-- C1 witness: at `sampleWindowConfig` (max 2 per 60-second window),
key `203.0.113.7`, time 90 s, empty store: both handlers answer with
limit 2, remaining `max 0 (2 - 1)`, reset 120, window 60 s. -/
theorem window_counter_key_expiry_decision_headers_witness :
    (fixedWindowHandler sampleWindowConfig sampleRequest (90 * nsPerSecond) emptyRedis).2.headers
      = some { limit := 2, remaining := some (max 0 (2 - 1)), reset := some 120,
               window := some (60 * nsPerSecond) }
    ∧ (slidingWindowHandler sampleWindowConfig sampleRequest (90 * nsPerSecond)
        emptyRedis).2.headers
      = some { limit := 2, remaining := some (max 0 (2 - 1)), reset := some 120,
               window := some (60 * nsPerSecond) } := by
  have h := window_counter_key_expiry_decision_headers sampleWindowConfig sampleRequest
    (90 * nsPerSecond) emptyRedis "203.0.113.7" (60 * nsPerSecond)
    "ratelimit:203.0.113.7:60" 1
    (by decide) rfl rfl (by decide) (by decide) (by decide)
  exact ⟨h.1.2.2.2, h.2.2.2.2⟩

/-- C2: the claim says the per-principal variant shares token-bucket
state across requests with the same key, so with `burstSize = 1` the
second of two instantaneous requests must be rejected.  The code
constructs `TokenBucketRateLimit(selectedConfig)` inside the request
handler, so every request runs on a freshly allocated `limiters` map:
both instantaneous requests are admitted.  This theorem evaluates the
model at that failing input. -/
theorem per_user_token_bucket_state_not_shared :
    perUserRun [("user", sampleBucketConfig)] sampleDefaultConfig
      [(some ⟨["user"]⟩, sampleRequest, 1000000000000, 1000),
       (some ⟨["user"]⟩, sampleRequest, 1000000000000, 1000)] emptyRedis
    = some (emptyRedis,
        [Decision.allow { limit := 1, remaining := none, reset := none, window := none },
         Decision.allow { limit := 1, remaining := none, reset := none, window := none }]) := by
  norm_num [perUserRun, perUserHandleOne, selectUserConfig, List.findSome?, List.lookup,
    tokenBucketRun, TokenBucketRateLimit, tokenBucketHandler, Limiter.allow,
    Limiter.reserveDelay, Limiter.advanceTokens, newLimiter, setLimiter, sampleBucketConfig,
    sampleDefaultConfig, sampleRequest, tokenBucketInitialState, qUnix, DefaultKeyFunc,
    zeroRateLimitConfig, emptyRedis]

/-- C3: when the store increment errors, both distributed handlers
admit the request (pass it to the next handler), set no rate-limit
headers, and leave the store state untouched. -/
theorem window_fail_open_on_store_error
    (config : RateLimitConfig) (c : Request) (now : Int) (redis : RedisState)
    (hfail : redis.failing = true) (hskip : c.path ∉ config.SkipPaths) :
    fixedWindowHandler config c now redis = (redis, Decision.next) ∧
    slidingWindowHandler config c now redis = (redis, Decision.next) := by
  constructor <;>
    simp [fixedWindowHandler, slidingWindowHandler, redisIncrementBy, hfail, hskip]

/-- C3 witness: the failing store admits `sampleRequest` in both
variants without touching state or headers. -/
theorem window_fail_open_on_store_error_witness :
    fixedWindowHandler sampleWindowConfig sampleRequest (90 * nsPerSecond) failingRedis
      = (failingRedis, Decision.next) ∧
    slidingWindowHandler sampleWindowConfig sampleRequest (90 * nsPerSecond) failingRedis
      = (failingRedis, Decision.next) :=
  window_fail_open_on_store_error sampleWindowConfig sampleRequest (90 * nsPerSecond)
    failingRedis rfl (by decide)

/-- C4 counterexample: the claim says no request-time execution path can
fail for a distributed policy with a nil store — including requests
dispatched through the per-principal variant.  But `PerUserRateLimit`
constructs the inner middleware inside the request handler, so selecting
a distributed policy with a nil Redis client panics at request time:
here a concrete request through the per-principal variant reaches the
construction-time panic (`none`). -/
theorem per_user_nil_redis_request_time_failure :
    perUserHandleOne [("admin", nilClientConfig)] sampleDefaultConfig
      (some ⟨["admin"]⟩) sampleRequest 0 0 emptyRedis = none := by
  decide

/-- C4 (amended): direct construction of either distributed limiter
fails immediately exactly when the Redis client is nil; but the
per-principal variant defers construction to request time, so the same
misconfiguration panics per-request there (see the counterexample). -/
theorem window_construction_rejects_nil_redis :
    (∀ config : RateLimitConfig,
        FixedWindowRateLimit config = none ↔ config.HasRedisClient = false) ∧
    (∀ config : RateLimitConfig,
        SlidingWindowRateLimit config = none ↔ config.HasRedisClient = false) := by
  constructor <;> intro config <;> cases hc : config.HasRedisClient <;>
    simp [FixedWindowRateLimit, SlidingWindowRateLimit, hc]

/-- C5: the claim says that with `burstSize = 1, requestsPerSecond = 1`,
after a rejection, waiting `1/R = 1` second admits exactly one more
request.  In the code the rejection path computes `retryAfter` with
`limiter.Reserve()` and never cancels the reservation, so the rejected
request consumes the next token: the request issued one second later is
rejected too.  This theorem evaluates the shared-state token-bucket
middleware at that failing input (admit, reject, then reject again at
`t + 1/R`). -/
theorem token_bucket_reserve_consumes_refill :
    (tokenBucketRun sampleBucketConfig
        [(sampleRequest, 1000), (sampleRequest, 1000), (sampleRequest, 1001)]
        tokenBucketInitialState).2
    = [Decision.allow { limit := 1, remaining := none, reset := none, window := none },
       Decision.reject { limit := 1, remaining := some 0, reset := some 1001, window := none } 2,
       Decision.reject { limit := 1, remaining := some 0, reset := some 1002, window := none } 2] := by
  norm_num [tokenBucketRun, TokenBucketRateLimit, tokenBucketHandler, Limiter.allow,
    Limiter.reserveDelay, Limiter.advanceTokens, newLimiter, setLimiter, sampleBucketConfig,
    sampleRequest, tokenBucketInitialState, qUnix, List.lookup, DefaultKeyFunc]

/-- C6 counterexample: role `"service"` has a configured policy
(`RequestsPerSecond = 7`) yet, because that policy's `MaxRequests` is
zero, the selection falls back to the default policy
(`RequestsPerSecond = 3`) — contradicting the claim that the default
applies only when no caller role matches a configured policy. -/
theorem per_user_zero_max_requests_fallback :
    (selectUserConfig [("service", zeroMaxRoleConfig)] (some ⟨["service"]⟩)
        sampleDefaultConfig).RequestsPerSecond = 3
    ∧ (List.lookup "service"
        [("service", zeroMaxRoleConfig)]).map RateLimitConfig.RequestsPerSecond = some 7 := by
  constructor <;> rfl

/-- C6 (amended): the policy selected is the one for the first role in
the caller's role list that has a configured policy, provided that
policy's `MaxRequests` field is nonzero; the default policy applies iff
the caller has no claims, no role has a configured policy, or the first
matching policy has `MaxRequests = 0`. -/
theorem per_user_policy_selection_characterized
    (m : List (String × RateLimitConfig)) (dflt : RateLimitConfig) :
    selectUserConfig m none dflt = dflt
    ∧ (∀ roles : List String, (∀ r ∈ roles, m.lookup r = none) →
        selectUserConfig m (some ⟨roles⟩) dflt = dflt)
    ∧ (∀ (pre rest : List String) (r : String) (cfg : RateLimitConfig),
        (∀ x ∈ pre, m.lookup x = none) → m.lookup r = some cfg →
        (cfg.MaxRequests ≠ 0 → selectUserConfig m (some ⟨pre ++ r :: rest⟩) dflt = cfg)
        ∧ (cfg.MaxRequests = 0 → selectUserConfig m (some ⟨pre ++ r :: rest⟩) dflt = dflt)) := by
  refine ⟨by simp [selectUserConfig, zeroRateLimitConfig], ?_, ?_⟩
  · intro roles h
    simp [selectUserConfig, findSome?_eq_none_of_all _ roles h, zeroRateLimitConfig]
  · intro pre rest r cfg hpre hr
    have hfs := findSome?_append_first (fun role => m.lookup role) r cfg rest pre hpre hr
    constructor <;> intro hmax <;> simp [selectUserConfig, hfs, hmax]

/-- C6 witness: a caller with roles `viewer, editor` where only
`editor` is configured (with nonzero `MaxRequests`) gets the `editor`
policy. -/
theorem per_user_policy_selection_characterized_witness :
    selectUserConfig [("editor", sampleBucketConfig)] (some ⟨["viewer", "editor"]⟩)
      sampleDefaultConfig = sampleBucketConfig :=
  ((per_user_policy_selection_characterized [("editor", sampleBucketConfig)]
      sampleDefaultConfig).2.2 ["viewer"] [] "editor" sampleBucketConfig
    (by intro x hx; simp only [List.mem_singleton] at hx; subst hx; rfl) rfl).1
    (by decide)

/-- C7: a request whose path is in `SkipPaths` passes through every
limiter variant unconditionally: the store / bucket state is returned
unchanged and no rate-limit headers are set. -/
theorem skip_paths_bypass_enforcement
    (config : RateLimitConfig) (c : Request) (hskip : c.path ∈ config.SkipPaths)
    (now : Int) (redis : RedisState) (nowSec : ℚ) (limiters : List (String × Limiter)) :
    fixedWindowHandler config c now redis = (redis, Decision.next) ∧
    slidingWindowHandler config c now redis = (redis, Decision.next) ∧
    tokenBucketHandler config c nowSec limiters = (limiters, Decision.next) ∧
    TokenBucketRateLimit config c nowSec limiters = (limiters, Decision.next) := by
  refine ⟨by simp [fixedWindowHandler, hskip], by simp [slidingWindowHandler, hskip],
    by simp [tokenBucketHandler, hskip], ?_⟩
  unfold TokenBucketRateLimit
  split <;> simp [tokenBucketHandler, hskip]

/-- C7 witness: `/health` bypasses all variants at `sampleWindowConfig`. -/
theorem skip_paths_bypass_enforcement_witness :
    fixedWindowHandler sampleWindowConfig healthRequest (90 * nsPerSecond) emptyRedis
      = (emptyRedis, Decision.next) ∧
    slidingWindowHandler sampleWindowConfig healthRequest (90 * nsPerSecond) emptyRedis
      = (emptyRedis, Decision.next) ∧
    tokenBucketHandler sampleWindowConfig healthRequest 1000 []
      = ([], Decision.next) ∧
    TokenBucketRateLimit sampleWindowConfig healthRequest 1000 []
      = ([], Decision.next) :=
  skip_paths_bypass_enforcement sampleWindowConfig healthRequest (by decide)
    (90 * nsPerSecond) emptyRedis 1000 []

/-- C8: the sliding-window and fixed-window limiters are behaviourally
identical — the request handlers and the constructors are the same
function: same decision, same counter key and updates, same headers,
same rejection body, for every configuration, request, time and store
state. -/
theorem sliding_window_equals_fixed_window :
    slidingWindowHandler = fixedWindowHandler ∧
    SlidingWindowRateLimit = FixedWindowRateLimit := ⟨rfl, rfl⟩

/-- C9 counterexample: claim says `retryAfter` always agrees with
`X-RateLimit-Reset` within rounding.  In the token-bucket variant each
rejection's uncancelled `Reserve()` leaves a token debt, so a third
instantaneous request is rejected with `retryAfter = 3` while the reset
header still says one second ahead (`reset - now = 1`): off by 2,
beyond rounding. -/
theorem token_bucket_retry_after_exceeds_reset :
    (tokenBucketRun sampleBucketConfig
        [(sampleRequest, 1000), (sampleRequest, 1000), (sampleRequest, 1000)]
        tokenBucketInitialState).2
    = [Decision.allow { limit := 1, remaining := none, reset := none, window := none },
       Decision.reject { limit := 1, remaining := some 0, reset := some 1001, window := none } 2,
       Decision.reject { limit := 1, remaining := some 0, reset := some 1001, window := none } 3]
    ∧ (1001 : Int) - qUnix 1000 + 1 < 3 := by
  constructor
  · norm_num [tokenBucketRun, TokenBucketRateLimit, tokenBucketHandler, Limiter.allow,
      Limiter.reserveDelay, Limiter.advanceTokens, newLimiter, setLimiter, sampleBucketConfig,
      sampleRequest, tokenBucketInitialState, qUnix, List.lookup, DefaultKeyFunc]
  · norm_num [qUnix]

/-- C9 (amended): on every rejection `retryAfter >= 1`: for the window
variants whenever the configured window is positive, and for the
token-bucket middleware on every run from its initial empty `limiters`
map with a non-negative configured rate — reservation-debt rejections
included.  Consistency with `X-RateLimit-Reset`: in the window variants
`retryAfter` always lies within one of `reset - now`; in the
token-bucket variant the same bound holds provided the key's bucket
carries no reservation debt (`tokens >= 0`) when the rejected request
arrives — without that proviso the bound fails (see the
counterexample). -/
theorem retry_after_bounds :
    (∀ (config : RateLimitConfig) (c : Request) (now : Int) (redis : RedisState)
        (hd : RateHeaders) (ra : Int),
      0 < config.WindowSize →
      ((fixedWindowHandler config c now redis).2 = Decision.reject hd ra
        ∨ (slidingWindowHandler config c now redis).2 = Decision.reject hd ra) →
      1 ≤ ra)
    ∧ (∀ (config : RateLimitConfig) (reqs : List (Request × ℚ))
        (hd : RateHeaders) (ra : Int),
      0 ≤ config.RequestsPerSecond →
      Decision.reject hd ra ∈ (tokenBucketRun config reqs tokenBucketInitialState).2 →
      1 ≤ ra)
    ∧ (∀ (config : RateLimitConfig) (c : Request) (now : Int) (redis : RedisState)
        (k : String) (window : Int) (countKey : String) (count : Int) (ra reset : Int),
      0 < config.WindowSize →
      c.path ∉ config.SkipPaths → redis.failing = false →
      k = (config.KeyFunc.getD DefaultKeyFunc) c →
      window = truncateTo config.WindowSize now →
      countKey = "ratelimit:" ++ k ++ ":" ++ toString (unixSec window) →
      count = redis.value countKey + 1 →
      config.MaxRequests < count →
      ra = durSeconds (window + config.WindowSize - now) + 1 →
      reset = unixSec (window + config.WindowSize) →
      ((fixedWindowHandler config c now redis).2
          = Decision.reject
              { limit := config.MaxRequests, remaining := some 0,
                reset := some reset, window := some config.WindowSize } ra
        ∧ (slidingWindowHandler config c now redis).2
          = Decision.reject
              { limit := config.MaxRequests, remaining := some 0,
                reset := some reset, window := some config.WindowSize } ra
        ∧ 1 ≤ ra ∧ reset - unixSec now ≤ ra ∧ ra ≤ reset - unixSec now + 1))
    ∧ (∀ (config : RateLimitConfig) (c : Request) (now : ℚ)
        (limiters : List (String × Limiter)) (key : String) (lim : Limiter) (ra : Int),
      1 ≤ config.RequestsPerSecond →
      c.path ∉ config.SkipPaths →
      key = (config.KeyFunc.getD DefaultKeyFunc) c →
      lim = (limiters.lookup key).getD
        (newLimiter (config.RequestsPerSecond : ℚ) config.BurstSize) →
      lim.limit = (config.RequestsPerSecond : ℚ) →
      1 ≤ lim.burst →
      lim.last ≤ now →
      0 ≤ lim.tokens →
      lim.advanceTokens now < 1 →
      ra = ⌊(1 - lim.advanceTokens now) / lim.limit⌋ + 1 →
      ((tokenBucketHandler config c now limiters).2
          = Decision.reject
              { limit := config.RequestsPerSecond, remaining := some 0,
                reset := some (qUnix (now + 1)), window := none } ra
        ∧ 1 ≤ ra ∧ qUnix (now + 1) - qUnix now ≤ ra
        ∧ ra ≤ qUnix (now + 1) - qUnix now + 1)) := by
  refine ⟨?_, ?_, ?_, ?_⟩
  · intro config c now redis hd ra hW hrej
    rcases hrej with hrej | hrej
    · exact window_reject_retry_pos config c now redis hd ra hW hrej
    · exact window_reject_retry_pos config c now redis hd ra hW hrej
  · intro config reqs hd ra hR hmem
    exact tokenBucket_run_retry_pos config hR reqs tokenBucketInitialState
      (by intro p hp; simp [tokenBucketInitialState] at hp) hd ra hmem
  · intro config c now redis k window countKey count ra reset hW hskip hfail hk hwindow
      hkey hcount hover hra hreset
    have hout := window_reject_output config c now redis k window countKey count
      hskip hfail hk hwindow hkey hcount hover
    have hbounds := window_reject_bounds config.WindowSize now hW ra reset
      (by rw [hra, hwindow]) (by rw [hreset, hwindow])
    subst hra hreset hwindow
    exact ⟨hout, hout, hbounds⟩
  · intro config c now limiters key lim ra hR hskip hkey hlim hlimit hburst hmono htok
      havail hra
    exact tb_reject_spec config c now limiters key lim hR hskip hkey hlim hlimit hburst
      hmono htok havail ra hra

/-- C9 witness: a window rejection at 90 s (counter already 2, max 2)
has `retryAfter = 31 ≥ 1` with reset 120 (and `120 - 90 ≤ 31 ≤ 31`);
the third instantaneous request of a burst-1 run carries a reservation
debt and is rejected with `retryAfter = 3 ≥ 1`; a debt-free
token-bucket rejection at instant 1000 gets `retryAfter = 2` with reset
`⌊1001⌋`. -/
theorem retry_after_bounds_witness :
    (1 ≤ (31 : Int))
    ∧ (1 ≤ (3 : Int))
    ∧ ((fixedWindowHandler sampleWindowConfig sampleRequest (90 * nsPerSecond)
        overlimitRedis).2
      = Decision.reject
          { limit := 2, remaining := some 0, reset := some 120,
            window := some (60 * nsPerSecond) } 31
      ∧ (slidingWindowHandler sampleWindowConfig sampleRequest (90 * nsPerSecond)
          overlimitRedis).2
      = Decision.reject
          { limit := 2, remaining := some 0, reset := some 120,
            window := some (60 * nsPerSecond) } 31
      ∧ 1 ≤ (31 : Int) ∧ (120 : Int) - unixSec (90 * nsPerSecond) ≤ 31
      ∧ (31 : Int) ≤ 120 - unixSec (90 * nsPerSecond) + 1)
    ∧ ((tokenBucketHandler sampleBucketConfig sampleRequest 1000 sampleLimiterState).2
      = Decision.reject
          { limit := 1, remaining := some 0, reset := some (qUnix (1000 + 1)),
            window := none } 2
      ∧ 1 ≤ (2 : Int) ∧ qUnix (1000 + 1) - qUnix 1000 ≤ 2
      ∧ (2 : Int) ≤ qUnix (1000 + 1) - qUnix 1000 + 1) := by
  refine ⟨?_, ?_, ?_, ?_⟩
  · exact retry_after_bounds.1 sampleWindowConfig sampleRequest (90 * nsPerSecond)
      overlimitRedis
      { limit := 2, remaining := some 0, reset := some 120,
        window := some (60 * nsPerSecond) } 31
      (by decide) (Or.inl (by decide))
  · refine retry_after_bounds.2.1 sampleBucketConfig
      [(sampleRequest, 1000), (sampleRequest, 1000), (sampleRequest, 1000)]
      { limit := 1, remaining := some 0, reset := some 1001, window := none } 3
      (by decide) ?_
    have heval : (tokenBucketRun sampleBucketConfig
        [(sampleRequest, 1000), (sampleRequest, 1000), (sampleRequest, 1000)]
        tokenBucketInitialState).2
      = [Decision.allow { limit := 1, remaining := none, reset := none, window := none },
         Decision.reject
           { limit := 1, remaining := some 0, reset := some 1001, window := none } 2,
         Decision.reject
           { limit := 1, remaining := some 0, reset := some 1001, window := none } 3] := by
      norm_num [tokenBucketRun, TokenBucketRateLimit, tokenBucketHandler, Limiter.allow,
        Limiter.reserveDelay, Limiter.advanceTokens, newLimiter, setLimiter,
        sampleBucketConfig, sampleRequest, tokenBucketInitialState, qUnix, List.lookup,
        DefaultKeyFunc]
    rw [heval]
    simp
  · exact retry_after_bounds.2.2.1 sampleWindowConfig sampleRequest (90 * nsPerSecond)
      overlimitRedis "203.0.113.7" (60 * nsPerSecond) "ratelimit:203.0.113.7:60" 3 31 120
      (by decide) (by decide) rfl rfl (by decide) (by decide) (by decide) (by decide)
      (by decide) (by decide)
  · exact retry_after_bounds.2.2.2 sampleBucketConfig sampleRequest 1000 sampleLimiterState
      "203.0.113.7" { limit := 1, burst := 1, tokens := 0, last := 1000 } 2
      (by decide) (by decide) rfl rfl (by norm_num [sampleBucketConfig]) (by decide)
      (by norm_num) (by norm_num)
      (by norm_num [Limiter.advanceTokens]) (by norm_num [Limiter.advanceTokens])

/-- C10: a configuration with `WindowSize = 0` makes both distributed
limiters behave exactly as the same configuration with a one-minute
window — counter keys, TTLs and headers included. -/
theorem zero_window_size_defaults_to_minute
    (config : RateLimitConfig) (h : config.WindowSize = 0) :
    FixedWindowRateLimit config
      = FixedWindowRateLimit { config with WindowSize := minuteNs } ∧
    SlidingWindowRateLimit config
      = SlidingWindowRateLimit { config with WindowSize := minuteNs } := by
  have hn : normalizeWindowConfig config
      = normalizeWindowConfig { config with WindowSize := minuteNs } := by
    by_cases hk : config.KeyFunc.isNone <;>
      simp [normalizeWindowConfig, hk, h, minuteNs, nsPerSecond]
  constructor <;> simp [FixedWindowRateLimit, SlidingWindowRateLimit, hn]

/-- C10 witness: `zeroWindowConfig` behaves as the one-minute variant. -/
theorem zero_window_size_defaults_to_minute_witness :
    FixedWindowRateLimit zeroWindowConfig
      = FixedWindowRateLimit { zeroWindowConfig with WindowSize := minuteNs } ∧
    SlidingWindowRateLimit zeroWindowConfig
      = SlidingWindowRateLimit { zeroWindowConfig with WindowSize := minuteNs } :=
  zero_window_size_defaults_to_minute zeroWindowConfig rfl

end PyAirtable
